import Mathlib

/-
Verification of the Kademlia DHT node implementation
(src/internal/kademlia/node.go and the RPC codec file).

Shallow embedding conventions:
  * Go byte arrays are `List Nat` (each element a byte value, big-endian);
    machine arithmetic is done with `% 2 ^ 32` where Go overflows matter.
  * Go nil pointers are `Option.none`; a Go panic (nil dereference, index
    out of range) is modelled by returning `none` from a function whose
    result type is wrapped in `Option`.
  * Go `(value, err)` pairs are `Option value × Bool` (the Bool is
    `err != nil`) where both components can be populated at once, or
    `Except String value` where the source returns early on errors.
  * Unbounded `for {}` loops are given explicit fuel; exhausted fuel is an
    outer `none` distinct from the panic `none`, and theorems show which
    fuel suffices.
  * The network client is a response oracle: a record of pure functions
    standing for the dispatcher; theorems quantify over it.
-/

set_option autoImplicit false

namespace Kademlia

/-! ## NodeID and distance -/

/-- A 160-bit node identifier: 20 bytes, most significant byte first
(Go `type NodeID [20]byte`). -/
abbrev NodeID := List Nat

/-- The all-zero ID. -/
def idZero : NodeID := List.replicate 20 0

/-- The all-ones ID `FFFF...FF` used by `NodeLookup` as the initial
`currentClosest` sentinel. -/
def idFF : NodeID := List.replicate 20 255

/-- Big-endian numeric value of an ID (the XOR distance is compared as an
unsigned integer). -/
def idVal (id : NodeID) : Nat :=
  id.foldl (fun acc b => acc * 256 + b) 0

/-- Bytewise XOR of two IDs (Go `a ^ b` on each byte). -/
def xorID (a b : NodeID) : NodeID :=
  List.zipWith Nat.xor a b

/-- Value of one hex character; Go `hex.DecodeString` accepts both cases.
Invalid characters decode to 0 (the source drops the decode error). -/
def hexCharVal (c : Char) : Nat :=
  if '0' ≤ c ∧ c ≤ '9' then c.toNat - '0'.toNat
  else if 'a' ≤ c ∧ c ≤ 'f' then c.toNat - 'a'.toNat + 10
  else if 'A' ≤ c ∧ c ≤ 'F' then c.toNat - 'A'.toNat + 10
  else 0

/-- Decode consecutive hex-character pairs to bytes. -/
def hexPairs : List Char → List Nat
  | c1 :: c2 :: rest => (hexCharVal c1 * 16 + hexCharVal c2) :: hexPairs rest
  | _ => []

/-- Modelled from the spec: the `NodeID.from_hex` constructor
(`NewNodeID`, defined in the missing nodeid source file). A 40-character
lowercase hex string denotes the 20 bytes of the ID; shorter input leaves
the remaining bytes zero, as copying the decoded bytes into a zeroed
`[20]byte` does. -/
def NewNodeID (s : String) : NodeID :=
  (hexPairs s.toList ++ List.replicate 20 0).take 20

/-- Binary logarithm, structurally recursive on a fuel of bit positions
(160 suffices for every ID value): the position of the highest set bit,
or zero below 2. -/
def log2p : Nat → Nat → Nat
  | 0, _ => 0
  | fuel + 1, n => if 2 ≤ n then log2p fuel (n / 2) + 1 else 0

/-- Modelled from the spec: `bucket_index(a, b)` is the position, counted
from the least-significant bit, of the highest set bit of `a ⊕ b`
(the `getBucketIndex` in the missing routing-table source file). -/
def bucketIndexOf (a b : NodeID) : Nat :=
  log2p 160 (idVal (xorID a b))

/-! ## Contact -/

/-- Modelled from the spec: the `Contact` struct of the missing contact
source file — the triple (NodeID, network address, cached distance).
`ID` and the distance are pointers (`none` = Go nil).  The distance field
is unexported: `node.go` accesses it as `currentClosest.distance`
(lowercase), so `encoding/json` never serialises it. -/
structure Contact where
  id : Option NodeID
  address : String
  distance : Option NodeID
  deriving DecidableEq, Repr, Inhabited

/-- `NewContact` leaves the cached distance nil. -/
def NewContact (id : Option NodeID) (address : String) : Contact :=
  ⟨id, address, none⟩

/-- Modelled from the spec: `Contact.CalcDistance` stores the XOR of this
contact's ID with the target in the distance cache.  It dereferences the
contact's `ID` pointer, so a nil ID is a panic (`none`). -/
def calcDistance (c : Contact) (target : NodeID) : Option Contact :=
  c.id.map (fun i => { c with distance := some (xorID i target) })

/-- Modelled from the spec: `Contact.Less` compares the cached XOR
distances as unsigned integers.  Only called on contacts whose distance
was just computed; a missing cache reads as zero. -/
def contactLess (a b : Contact) : Bool :=
  idVal (a.distance.getD idZero) < idVal (b.distance.getD idZero)

/-- Modelled from the spec: contact equality compares NodeID only. -/
def sameID (a b : Contact) : Bool :=
  a.id == b.id

/-! ## RPC envelope (shared by the codec and by node.go) -/

/-- `Payload` of an RPC: an optional value and an optional contact list
(Go `Value *string` and `Contacts []Contact`, where `none` is the nil
slice). -/
structure Payload where
  value : Option String
  contacts : Option (List Contact)
  deriving DecidableEq, Repr

/-- The RPC envelope.  All four fields are pointers in the source
(`Type *RPCType`, `Payload *Payload`, `ID *string`, `SenderIP *string`);
`RPCType` is a string type. -/
structure RPC where
  type : Option String
  payload : Option Payload
  id : Option String
  senderIP : Option String
  deriving DecidableEq, Repr

/-- The five declared RPC kinds (`rpcTypes` in the codec file). -/
def rpcTypes : List String := ["PING", "STORE", "FIND_VALUE", "FIND_NODE", "OK"]

/-- The `errWrongType` message of the codec file. -/
def errWrongType : String := "unexpected rpc type given"

/-- `validateRPCType`: scan `rpcTypes` for the given kind; unknown kinds
produce the `errWrongType` error.  (Only `NewRPC` calls this; the decoder
does not.) -/
def validateRPCType (rpc : String) : Except String Unit :=
  if rpcTypes.any (fun t => t == rpc) then .ok () else .error errWrongType

/-- `NewRPC` builds an envelope after validating the kind; the random ID
produced by `randarr.RandomHexString(20)` is passed in as an oracle. -/
def NewRPC (rpc : String) (senderID : String) (payload : Payload)
    (randomID : String) : Except String RPC :=
  (validateRPCType rpc).map fun _ =>
    ⟨some rpc, some payload, some randomID, some senderID⟩

/-! ## The JSON document model

`MarshalRPC`/`UnmarshalRPC` delegate to `encoding/json`.  We model the
JSON documents themselves (numbers restricted to the naturals that byte
fields can hold); byte-level rendering of a document is injective, so the
round-trip claims live at the document level. -/

inductive Json where
  | null : Json
  | str : String → Json
  | num : Nat → Json
  | arr : List Json → Json
  | obj : List (String × Json) → Json
  deriving Inhabited

/-- Field lookup in a decoded object; an absent field behaves like `null`
(both leave the zero value of the Go field untouched). -/
def jGet (fields : List (String × Json)) (k : String) : Json :=
  match fields.lookup k with
  | some v => v
  | none => Json.null

/-- Encoding of an optional string (nil pointer ↦ `null`). -/
def jsonOfOptStr : Option String → Json
  | none => .null
  | some s => .str s

/-- Encoding of an optional `*NodeID`: a JSON array of its 20 byte
values. -/
def jsonOfID : Option NodeID → Json
  | none => .null
  | some l => .arr (l.map .num)

/-- Encoding of a `Contact`.  Only the exported fields `ID` and `Address`
are serialised; the lowercase `distance` field is skipped by
`encoding/json`. -/
def jsonOfContact (c : Contact) : Json :=
  .obj [("ID", jsonOfID c.id), ("Address", .str c.address)]

/-- Encoding of a `Payload` (nil contact slice ↦ `null`). -/
def jsonOfPayload (p : Payload) : Json :=
  .obj [("value", jsonOfOptStr p.value),
        ("contacts",
          match p.contacts with
          | none => .null
          | some cs => .arr (cs.map jsonOfContact))]

/-- `MarshalRPC`: serialise the envelope.  `json.Marshal` cannot fail on
this struct, so the error result of the source is always nil. -/
def MarshalRPC (r : RPC) : Json :=
  .obj [("type", jsonOfOptStr r.type),
        ("payload",
          match r.payload with
          | none => .null
          | some p => jsonOfPayload p),
        ("id", jsonOfOptStr r.id),
        ("senderIP", jsonOfOptStr r.senderIP)]

/-- Decoding into a `*string` / `*RPCType` field: `null` leaves it nil,
a string sets it (any string, the kind is not validated here), anything
else is a type error. -/
def decOptStr : Json → Except String (Option String)
  | .null => .ok none
  | .str s => .ok (some s)
  | _ => .error "json: cannot unmarshal value into string field"

/-- Decoding one byte of a NodeID; values ≥ 256 overflow the Go `byte`. -/
def decByte : Json → Except String Nat
  | .num n => if n < 256 then .ok n else .error "json: byte overflow"
  | _ => .error "json: cannot unmarshal value into byte"

/-- Decoding a list of bytes. -/
def decBytes : List Json → Except String (List Nat)
  | [] => .ok []
  | j :: js => do
      let b ← decByte j
      let bs ← decBytes js
      pure (b :: bs)

/-- Decoding a `*NodeID` ([20]byte): extra array elements are discarded
and missing ones stay zero, per `encoding/json` array semantics. -/
def decID : Json → Except String (Option NodeID)
  | .null => .ok none
  | .arr js => (decBytes js).map
      (fun bs => some ((bs ++ List.replicate 20 0).take 20))
  | _ => .error "json: cannot unmarshal value into [20]byte"

/-- Decoding a string-valued field that is not behind a pointer:
`null` leaves the empty string. -/
def decStr : Json → Except String String
  | .null => .ok ""
  | .str s => .ok s
  | _ => .error "json: cannot unmarshal value into string"

/-- Decoding a `Contact`: the unexported distance is never populated. -/
def decContact : Json → Except String Contact
  | .null => .ok ⟨none, "", none⟩
  | .obj fs => do
      let oid ← decID (jGet fs "ID")
      let addr ← decStr (jGet fs "Address")
      pure ⟨oid, addr, none⟩
  | _ => .error "json: cannot unmarshal value into Contact"

/-- Decoding a list of contacts. -/
def decContactList : List Json → Except String (List Contact)
  | [] => .ok []
  | j :: js => do
      let c ← decContact j
      let cs ← decContactList js
      pure (c :: cs)

/-- Decoding the `[]Contact` slice. -/
def decContacts : Json → Except String (Option (List Contact))
  | .null => .ok none
  | .arr js => (decContactList js).map some
  | _ => .error "json: cannot unmarshal value into contact slice"

/-- Decoding a `*Payload`. -/
def decPayload : Json → Except String (Option Payload)
  | .null => .ok none
  | .obj fs => do
      let v ← decOptStr (jGet fs "value")
      let cs ← decContacts (jGet fs "contacts")
      pure (some ⟨v, cs⟩)
  | _ => .error "json: cannot unmarshal value into Payload"

/-- `UnmarshalRPC`: decode a document into a zeroed `RPC`.  Absent and
`null` fields leave nil pointers; the message kind is surfaced verbatim
without consulting `validateRPCType`. -/
def UnmarshalRPC (j : Json) : Except String RPC :=
  match j with
  | .null => .ok ⟨none, none, none, none⟩
  | .obj fs => do
      let t ← decOptStr (jGet fs "type")
      let p ← decPayload (jGet fs "payload")
      let i ← decOptStr (jGet fs "id")
      let s ← decOptStr (jGet fs "senderIP")
      pure ⟨t, p, i, s⟩
  | _ => .error "json: cannot unmarshal value into RPC"

/-- Well-formedness of a contact as a Go value: the distance cache is nil
and the ID, when present, holds exactly 20 bytes (automatic for the Go
type `[20]byte`). -/
def wfContact (c : Contact) : Bool :=
  c.distance == none &&
    (match c.id with
     | none => true
     | some id => id.length == 20 && id.all (fun b => b < 256))

/-- Well-formedness of an envelope as a Go value. -/
def wfRPC (r : RPC) : Bool :=
  match r.payload with
  | none => true
  | some p =>
    match p.contacts with
    | none => true
    | some cs => cs.all wfContact

/-! ## ContactCandidates -/

/-- Modelled from the spec: membership in the probed set / shortlist is by
NodeID (`ContactCandidates.Contains` of the missing candidates file). -/
def ccContains (cs : List Contact) (c : Contact) : Bool :=
  cs.any (fun x => sameID x c)

/-- One step of insertion sort by cached distance. -/
def insertSorted (c : Contact) : List Contact → List Contact
  | [] => [c]
  | d :: ds => if contactLess c d then c :: d :: ds else d :: insertSorted c ds

/-- Modelled from the spec: `ContactCandidates.Sort` orders the shortlist
by ascending XOR distance to the target. -/
def ccSort (cs : List Contact) : List Contact :=
  cs.foldr insertSorted []

/-- Modelled from the spec: `ContactCandidates.AppendUnique` merges the
returned contacts, excluding the already-shortlisted ones (by NodeID). -/
def ccAppendUnique (cs newContacts : List Contact) : List Contact :=
  newContacts.foldl (fun acc c => if ccContains acc c then acc else acc ++ [c]) cs

/-! ## RoutingTable -/

/-- K, the bucket capacity (`BucketSize` of the missing bucket file;
the spec fixes K = 20). -/
def BucketSize : Nat := 20

/-- Modelled from the spec: the routing table is the owning node's own
contact plus 160 k-buckets (front = least recently seen). -/
structure RoutingTable where
  me : Contact
  buckets : List (List Contact)
  deriving DecidableEq, Repr

/-- Modelled from the spec: `getBucketIndex` derives the bucket of an ID
from its XOR distance to `me`. -/
def getBucketIndex (rt : RoutingTable) (id : Option NodeID) : Nat :=
  bucketIndexOf (rt.me.id.getD idZero) (id.getD idZero)

/-- All contacts of the table, bucket by bucket. -/
def rtContacts (rt : RoutingTable) : List Contact :=
  rt.buckets.flatten

/-- Modelled from the spec: `FindClosestContacts(target, n)` scores every
contact by XOR distance to the target and returns the `n` closest in
ascending order. -/
def FindClosestContacts (rt : RoutingTable) (target : NodeID) (count : Nat) :
    List Contact :=
  (ccSort ((rtContacts rt).map
    (fun c => { c with distance := some (xorID (c.id.getD idZero) target) }))).take count

/-- Modelled from the spec: bucket `add` moves an already-present contact
to the back, appends at the back when there is room, and fails (leaving
the bucket unchanged) when full. -/
def bucketAdd (b : List Contact) (c : Contact) : List Contact :=
  if b.any (fun x => sameID x c) then b.filter (fun x => !(sameID x c)) ++ [c]
  else if b.length < BucketSize then b ++ [c]
  else b

/-- Modelled from the spec: `AddContact` ignores `me` and otherwise adds
to the bucket of the contact's index.  (The liveness-probe policy for a
full bucket lives in `updateBucket` of node.go, below.) -/
def AddContact (rt : RoutingTable) (c : Contact) : RoutingTable :=
  if sameID c rt.me then rt
  else
    let idx := getBucketIndex rt c.id
    { rt with buckets := rt.buckets.set idx (bucketAdd (rt.buckets.getD idx []) c) }

/-- Modelled from the spec: `RemoveContact` unconditionally removes the
contact from its bucket. -/
def RemoveContact (rt : RoutingTable) (c : Contact) : RoutingTable :=
  let idx := getBucketIndex rt c.id
  { rt with
    buckets := rt.buckets.set idx
      ((rt.buckets.getD idx []).filter (fun x => !(sameID x c))) }

/-! ## Client and node state -/

/-- Modelled from the spec: the RPC dispatcher (`Client` of the missing
network file) as a response oracle.  Each send returns the Go pair
`(*RPC, error)`: an optional reply and an error flag, which can be
populated in any combination by a peer. -/
structure Client where
  sendPing : Contact → Contact → Option RPC × Bool
  sendFindContact : Contact → Contact → NodeID → Option RPC × Bool
  sendFindData : Contact → Contact → String → Option RPC × Bool
  sendStore : Contact → Contact → String → String → Option RPC × Bool

/-- The node state reachable through the `*Node` receiver: the routing
table and the local value store (`content map[string]string`).  The TTL
sweep `updateContent` runs in a background task and is not modelled. -/
structure Node where
  rt : RoutingTable
  content : List (String × String)
  deriving DecidableEq, Repr

/-- Go map read `content[key]`. -/
def contentLookup (m : List (String × String)) (key : String) : Option String :=
  match m.find? (fun kv => kv.fst == key) with
  | none => none
  | some kv => some kv.snd

/-- Go map write `content[key] = value`. -/
def contentInsert (m : List (String × String)) (key value : String) :
    List (String × String) :=
  m.filter (fun kv => !(kv.fst == key)) ++ [(key, value)]

/-- `insertLocalStore`: store a key/value pair in the node's map. -/
def insertLocalStore (st : Node) (key value : String) : Node :=
  { st with content := contentInsert st.content key value }

/-- `searchLocalStore`: return the value if found, else nil. -/
def searchLocalStore (st : Node) (key : String) : Option String :=
  match contentLookup st.content key with
  | none => none
  | some value => some value

/-! ## node.go: Ping and bucket maintenance -/

/-- `Ping`: on error remove the target from its bucket; otherwise
dereference `rpc.Type` (a nil reply or nil type is a panic) and add the
target back on `"OK"`. -/
def Ping (cl : Client) (st : Node) (target : Contact) : Option Node :=
  match cl.sendPing target st.rt.me with
  | (_, true) => some { st with rt := RemoveContact st.rt target }
  | (orpc, false) =>
      match orpc with
      | none => none
      | some rpc =>
          match rpc.type with
          | none => none
          | some t =>
              if t == "OK" then some { st with rt := AddContact st.rt target }
              else some st

/-- `updateBucket`: add the contact if its bucket has room or already
holds it; otherwise ping the least recently seen contact and re-check.
The Go parameter is a by-value `bucket` struct whose inner list pointer
aliases `rt.buckets[idx]`, so the re-check observes the ping's effect;
we therefore pass the index and re-read the bucket. -/
def updateBucket (cl : Client) (st : Node) (idx : Nat) (contact : Contact) :
    Option Node :=
  let b := st.rt.buckets.getD idx []
  if b.length < BucketSize ∨ ccContains b contact then
    some { st with rt := AddContact st.rt contact }
  else
    match b.head? with
    | none => none
    | some first =>
        match Ping cl st first with
        | none => none
        | some st2 =>
            let b2 := st2.rt.buckets.getD idx []
            if b2.length < BucketSize then
              some { st2 with rt := AddContact st2.rt contact }
            else some st2

/-! ## node.go: shortlist maintenance -/

/-- `appendUniqueContacts`: evaluates `rpc.Payload.Contacts[0]`, an index
out of range (panic, `none`) whenever the reply's contact list is empty.
Otherwise it updates its by-value copies of the shortlist, the current
closest and the progress flag — all returned here and discarded by the
caller, exactly as the Go by-value parameters are. -/
def appendUniqueContacts (rpc : RPC) (shortList : List Contact)
    (currentClosest : Contact) (updateClosest : Bool) :
    Option (List Contact × Contact × Bool) :=
  let cs := (rpc.payload.map fun p => p.contacts.getD []).getD []
  match cs with
  | [] => none
  | c0 :: _ =>
      if contactLess c0 currentClosest then
        let currentClosest2 := c0
        let sl1 := ccAppendUnique shortList cs
        let sl2 := ccSort sl1
        let sl3 := if BucketSize ≤ sl2.length then sl2.take BucketSize else sl2
        some (sl3, currentClosest2, true)
      else
        some (shortList, currentClosest, updateClosest)

/-- The `CalcDistance` loop of `updateShortlist`
(`for i := 0; i < len(rpc.Payload.Contacts); i++`): score every returned
contact against the target; a nil contact ID panics (`none`). -/
def calcAll (target : NodeID) : List Contact → Option (List Contact)
  | [] => some []
  | c :: cs =>
      match calcDistance c target with
      | none => none
      | some c2 =>
          match calcAll target cs with
          | none => none
          | some cs2 => some (c2 :: cs2)

/-- `updateShortlist`: receives the shortlist, probed set, current
closest and progress flag by value; only the state reachable through the
`*Node` receiver (the routing table) survives the call, which is why the
result is just the new node state.  Dereferences `rpc.Payload`, runs
`CalcDistance` on every returned contact (nil contact IDs panic) and then
`appendUniqueContacts` (empty contact lists panic). -/
def updateShortlist (cl : Client) (st : Node) (targetID : NodeID)
    (shortList probedNodes : List Contact) (rpc : Option RPC)
    (i _numProbed : Nat) (currentClosest : Contact) (updateClosest : Bool) :
    Option Node :=
  let c := shortList.getD i default
  let _probedNodes2 := probedNodes ++ [c]
  let idx := getBucketIndex st.rt c.id
  match updateBucket cl st idx c with
  | none => none
  | some st2 =>
      match rpc with
      | none => none
      | some r =>
          match r.payload with
          | none => none
          | some p =>
              match calcAll targetID (p.contacts.getD []) with
              | none => none
              | some cs =>
                  let r2 : RPC := { r with payload := some { p with contacts := some cs } }
                  match appendUniqueContacts r2 shortList currentClosest updateClosest with
                  | none => none
                  | some _ => some st2

/-! ## node.go: NodeLookup -/

/-- α, the lookup parallelism; the source sets `alpha := 1` in both
`NodeLookup` and `FindValue`. -/
def alpha : Nat := 1

/-- The sentinel string for the farthest possible contact. -/
def strFF : String := "FFFFFFFFFFFFFFFFFFFFFFFFFFFFFFFFFFFFFFFF"

/-- The initial `currentClosest`: the contact at the farthest possible
ID, with its distance cache set to the same sentinel (node.go lines
102-103 and 158-159). -/
def currentClosestInit : Contact :=
  { NewContact (some (NewNodeID strFF)) "" with distance := some (NewNodeID strFF) }

/-- The inner probe loop of `NodeLookup`
(`for i := 0; i < shortList.Len() && numProbed < alpha; i++`).
Fuel counts loop iterations; a `none` result is exhausted fuel (the
caller passes `shortList.Len()`, which we prove sufficient), `some none`
is a panic inside `updateShortlist`, and `some (some _)` is the final
shortlist and node state.  An error reply removes the peer from table
and shortlist; `continue` still runs the `i++` post statement. -/
def lookupInner (cl : Client) (target : NodeID) :
    Nat → Nat → List Contact → List Contact → Nat → Contact → Bool → Node →
    Option (Option (List Contact × Node))
  | 0, i, sl, _probed, np, _cc, _uc, st =>
      if i < sl.length ∧ np < alpha then none else some (some (sl, st))
  | fuel + 1, i, sl, probed, np, cc, uc, st =>
      if i < sl.length ∧ np < alpha then
        let c := sl.getD i default
        if ccContains probed c then
          lookupInner cl target fuel (i + 1) sl probed np cc uc st
        else
          match cl.sendFindContact c st.rt.me target with
          | (_, true) =>
              let st2 : Node := { st with rt := RemoveContact st.rt c }
              lookupInner cl target fuel (i + 1) (sl.eraseIdx i) probed np cc uc st2
          | (orpc, false) =>
              match updateShortlist cl st target sl probed orpc i np cc uc with
              | none => some none
              | some st2 => lookupInner cl target fuel (i + 1) sl probed np cc uc st2
      else some (some (sl, st))

/-- The outer `for {}` of `NodeLookup`.  Each round resets the progress
flag and the probe counter, runs the inner loop, and exits when
`!updateClosest || probedNodes.Len() >= BucketSize`.  Fuel bounds the
number of rounds (`none` = fuel exhausted). -/
def lookupOuter (cl : Client) (target : NodeID) :
    Nat → List Contact → List Contact → Contact → Node →
    Option (Option (List Contact × Node))
  | 0, _sl, _probed, _cc, _st => none
  | fuel + 1, sl, probed, cc, st =>
      let updateClosest := false
      let numProbed := 0
      match lookupInner cl target sl.length 0 sl probed numProbed cc updateClosest st with
      | none => none
      | some none => some none
      | some (some (sl2, st2)) =>
          if updateClosest = false ∨ BucketSize ≤ probed.length then some (some (sl2, st2))
          else lookupOuter cl target fuel sl2 probed cc st2

/-- `NodeLookup`: seed the shortlist with the α closest known contacts,
set the sentinel current-closest, and iterate. -/
def NodeLookup (cl : Client) (st : Node) (targetID : NodeID) (fuel : Nat) :
    Option (Option (List Contact × Node)) :=
  let shortList := FindClosestContacts st.rt targetID alpha
  lookupOuter cl targetID fuel shortList [] currentClosestInit st

/-! ## SHA-1 (crypto/sha1, used by StoreValue) -/

/-- Truncation to a 32-bit word. -/
def w32 (x : Nat) : Nat := x % 4294967296

/-- 32-bit left rotation. -/
def rotl32 (n x : Nat) : Nat := w32 (Nat.lor (x <<< n) (x >>> (32 - n)))

/-- The SHA-1 round constant for round `t`. -/
def sha1k (t : Nat) : Nat :=
  if t < 20 then 1518500249 else if t < 40 then 1859775393
  else if t < 60 then 2400959708 else 3395469782

/-- The SHA-1 round function for round `t`. -/
def sha1f (t b c d : Nat) : Nat :=
  if t < 20 then Nat.lor (Nat.land b c) (Nat.land (Nat.xor b 4294967295) d)
  else if t < 40 then Nat.xor (Nat.xor b c) d
  else if t < 60 then Nat.lor (Nat.lor (Nat.land b c) (Nat.land b d)) (Nat.land c d)
  else Nat.xor (Nat.xor b c) d

/-- The 80-word message schedule of one block. -/
def sha1Schedule (block : List Nat) : List Nat :=
  (List.range 80).foldl
    (fun ws t =>
      if t < 16 then ws ++ [block.getD t 0]
      else ws ++ [rotl32 1 (Nat.xor (Nat.xor (ws.getD (t - 3) 0) (ws.getD (t - 8) 0))
                            (Nat.xor (ws.getD (t - 14) 0) (ws.getD (t - 16) 0)))])
    []

/-- The 80 rounds of one block, starting from the running hash `h`. -/
def sha1Rounds (h ws : List Nat) : List Nat :=
  let s := (List.range 80).foldl
    (fun s t =>
      match s with
      | (a, b, c, d, e) =>
          (w32 (rotl32 5 a + sha1f t b c d + e + sha1k t + ws.getD t 0),
           a, rotl32 30 b, c, d))
    (h.getD 0 0, h.getD 1 0, h.getD 2 0, h.getD 3 0, h.getD 4 0)
  match s with
  | (a, b, c, d, e) =>
      [w32 (h.getD 0 0 + a), w32 (h.getD 1 0 + b), w32 (h.getD 2 0 + c),
       w32 (h.getD 3 0 + d), w32 (h.getD 4 0 + e)]

/-- Big-endian bytes of a value, `n` bytes wide. -/
def beBytes (n v : Nat) : List Nat :=
  (List.range n).map (fun i => v >>> (8 * (n - 1 - i)) % 256)

/-- SHA-1 padding: append `0x80`, zeros to 56 mod 64, and the 64-bit
big-endian bit length. -/
def sha1Pad (msg : List Nat) : List Nat :=
  let z := (119 - msg.length % 64) % 64
  msg ++ 128 :: (List.replicate z 0 ++ beBytes 8 (8 * msg.length))

/-- Split a padded message into 64-byte blocks. -/
def toBlocks (msg : List Nat) : List (List Nat) :=
  (List.range (msg.length / 64)).map (fun i => (msg.drop (64 * i)).take 64)

/-- The sixteen 32-bit big-endian words of one block. -/
def toWords (block : List Nat) : List Nat :=
  (List.range 16).map (fun i =>
    block.getD (4 * i) 0 * 16777216 + block.getD (4 * i + 1) 0 * 65536 +
      block.getD (4 * i + 2) 0 * 256 + block.getD (4 * i + 3) 0)

/-- `sha1.Sum`: the 20-byte SHA-1 digest of a byte string. -/
def sha1Bytes (msg : List Nat) : List Nat :=
  let h := (toBlocks (sha1Pad msg)).foldl
    (fun h b => sha1Rounds h (sha1Schedule (toWords b)))
    [1732584193, 4023233417, 2562383102, 271733878, 3285377520]
  h.foldr (fun w acc => beBytes 4 w ++ acc) []

/-- Lowercase hex digit. -/
def hexDigit (n : Nat) : Char :=
  if n < 10 then Char.ofNat (48 + n) else Char.ofNat (87 + n)

/-- `hex.EncodeToString` of a byte string. -/
def hexOfBytes (bs : List Nat) : String :=
  String.mk (bs.foldr (fun b acc => hexDigit (b / 16) :: hexDigit (b % 16) :: acc) [])

/-- The lowercase-hex SHA-1 of a string's UTF-8 bytes
(`hex.EncodeToString(sha1.Sum([]byte(data))[:])`). -/
def sha1hex (data : String) : String :=
  hexOfBytes (sha1Bytes (data.toUTF8.toList.map (fun b => b.toNat)))

/-! ## node.go: StoreValue -/

/-- The send loop of `StoreValue`: store at each looked-up node, dropping
peers that error, refreshing the others' buckets. -/
def storeLoop (cl : Client) (key dataPackage : String) :
    List Contact → Node → Option Node
  | [], st => some st
  | node :: rest, st =>
      match cl.sendStore node st.rt.me key dataPackage with
      | (_, true) =>
          storeLoop cl key dataPackage rest { st with rt := RemoveContact st.rt node }
      | (_, false) =>
          let idx := getBucketIndex st.rt node.id
          match updateBucket cl st idx node with
          | none => none
          | some st2 => storeLoop cl key dataPackage rest st2

/-- `StoreValue`: hash the data, look up the closest nodes, send STORE
RPCs carrying `"<unix-seconds>:" + data`, and return the key.  The local
content map is never written (its comment notwithstanding).  `sec` is the
oracle for `time.Now().Unix()`. -/
def StoreValue (cl : Client) (sec : Nat) (st : Node) (data : String) (fuel : Nat) :
    Option (Option (String × Node)) :=
  let key := sha1hex data
  let targetID := NewNodeID key
  match NodeLookup cl st targetID fuel with
  | none => none
  | some none => some none
  | some (some (nodes, st2)) =>
      let dataPackage := toString sec ++ ":" ++ data
      match storeLoop cl key dataPackage nodes st2 with
      | none => some none
      | some st3 => some (some (key, st3))

/-! ## node.go: FindValue -/

/-- The inner probe loop of `FindValue`.  It checks
`rpc.Payload.Value != nil && *rpc.Payload.Value != ""` BEFORE the error
check, so a nil reply or nil payload is dereferenced (panic).  A found
value is split at `":"` and its second component re-stored via
`StoreValue` before the full payload value is returned (`.inl`);
otherwise the loop behaves as in `NodeLookup` and finishes with `.inr`. -/
def findValueInner (cl : Client) (sec : Nat) (hash : String) (target : NodeID)
    (lookupFuel : Nat) :
    Nat → Nat → List Contact → List Contact → Nat → Contact → Bool → Node →
    Option (Option ((String × Node) ⊕ (List Contact × Node)))
  | 0, i, sl, _probed, np, _cc, _uc, st =>
      if i < sl.length ∧ np < alpha then none else some (some (.inr (sl, st)))
  | fuel + 1, i, sl, probed, np, cc, uc, st =>
      if i < sl.length ∧ np < alpha then
        let c := sl.getD i default
        if ccContains probed c then
          findValueInner cl sec hash target lookupFuel fuel (i + 1) sl probed np cc uc st
        else
          match cl.sendFindData c st.rt.me hash with
          | (none, _) => some none
          | (some r, err) =>
              match r.payload with
              | none => some none
              | some p =>
                  if p.value ≠ none ∧ p.value ≠ some "" then
                    match ((p.value.getD "").splitOn ":").get? 1 with
                    | none => some none
                    | some v =>
                        match StoreValue cl sec st v lookupFuel with
                        | none => none
                        | some none => some none
                        | some (some (_, st2)) =>
                            some (some (.inl (p.value.getD "", st2)))
                  else if err then
                    findValueInner cl sec hash target lookupFuel fuel (i + 1)
                      (sl.eraseIdx i) probed np cc uc
                      { st with rt := RemoveContact st.rt c }
                  else
                    match updateShortlist cl st target sl probed (some r) i np cc uc with
                    | none => some none
                    | some st2 =>
                        findValueInner cl sec hash target lookupFuel fuel (i + 1)
                          sl probed np cc uc st2
      else some (some (.inr (sl, st)))

/-- The outer `for {}` of `FindValue`, with the same exit predicate as
`NodeLookup`; exhausting the shortlist yields `errors.New("no value
found")`. -/
def findValueOuter (cl : Client) (sec : Nat) (hash : String) (target : NodeID)
    (lookupFuel : Nat) :
    Nat → List Contact → List Contact → Contact → Node →
    Option (Option (Except String String × Node))
  | 0, _sl, _probed, _cc, _st => none
  | fuel + 1, sl, probed, cc, st =>
      let updateClosest := false
      let numProbed := 0
      match findValueInner cl sec hash target lookupFuel sl.length 0 sl probed
          numProbed cc updateClosest st with
      | none => none
      | some none => some none
      | some (some (.inl (v, st2))) => some (some (.ok v, st2))
      | some (some (.inr (sl2, st2))) =>
          if updateClosest = false ∨ BucketSize ≤ probed.length then
            some (some (.error "no value found", st2))
          else findValueOuter cl sec hash target lookupFuel fuel sl2 probed cc st2

/-- `FindValue`: a local map hit returns the stored content immediately;
otherwise iterate FIND_VALUE probes over the shortlist for
`NewNodeID(hash)`. -/
def FindValue (cl : Client) (sec : Nat) (st : Node) (hash : String) (fuel : Nat) :
    Option (Option (Except String String × Node)) :=
  match contentLookup st.content hash with
  | some content => some (some (.ok content, st))
  | none =>
      let target := NewNodeID hash
      let shortList := FindClosestContacts st.rt target alpha
      findValueOuter cl sec hash target fuel fuel shortList [] currentClosestInit st

/-! ## node.go: bucket refresh -/

/-- `generateRefreshNodeValue`: clear the ID, set bit `bucketIndex` of
the big-endian byte array, then XOR each byte strictly below that
position with `uint8(rand.Intn(bucketIndex))`.  `rand` is modelled by the
oracle `rng`: call `k` yields `rng k % bucketIndex`, exactly the range
`Intn` can produce; the `uint8` cast is `% 256`.  `scewStep` is one loop
iteration (`nodeValue[i] ^= byte(scew)` at `i = 19 - k`).  The owning
node's ID is not consulted. -/
def scewStep (rng : Nat → Nat) (bucketIndex : Nat) (v : List Nat) (k : Nat) :
    List Nat :=
  let i := 19 - k
  v.set i (Nat.xor (v.getD i 0) (rng k % bucketIndex % 256))

def generateRefreshNodeValue (bucketIndex : Nat) (rng : Nat → Nat) : NodeID :=
  let bytePos := 19 - bucketIndex / 8
  let offset := bucketIndex % 8
  let base := (List.replicate 20 0).set bytePos ((1 <<< offset) % 256)
  (List.range (19 - bytePos)).foldl (scewStep rng bucketIndex) base

/-- The index sequence of the `refreshNodes` loop
`for i := 1; i > 159; i++`: the indices for which the body runs, with
fuel bounding the iteration count. -/
def refreshLoopIndices : Nat → Nat → List Nat
  | 0, _ => []
  | fuel + 1, i => if 159 < i then i :: refreshLoopIndices fuel (i + 1) else []

/-- `refreshNodes`: one `NodeLookup` on a refresh ID per produced loop
index.  `rngs i` seeds the RNG oracle of iteration `i`
(`time.Now().UTC().UnixNano()`). -/
def refreshNodes (cl : Client) (rngs : Nat → Nat → Nat) (st : Node)
    (fuel lookupFuel : Nat) : Option Node :=
  (refreshLoopIndices fuel 1).foldlM
    (fun s i =>
      match NodeLookup cl s (generateRefreshNodeValue i (rngs i)) lookupFuel with
      | none => none
      | some none => none
      | some (some (_, s2)) => some s2)
    st

/-! ## Concrete fixtures (for witnesses and counterexamples) -/

/-- A client oracle whose every send times out. -/
def clNull : Client :=
  ⟨fun _ _ => (none, true), fun _ _ _ => (none, true),
   fun _ _ _ => (none, true), fun _ _ _ _ => (none, true)⟩

/-- A successful reply carrying no value and an empty contact list. -/
def rpcEmptyContacts : RPC := ⟨some "OK", some ⟨none, some []⟩, some "rid", some "sip"⟩

/-- A client whose FIND_NODE and FIND_VALUE sends succeed with
`rpcEmptyContacts` and whose other sends time out. -/
def clEmptyReplies : Client :=
  ⟨fun _ _ => (none, true),
   fun _ _ _ => (some rpcEmptyContacts, false),
   fun _ _ _ => (some rpcEmptyContacts, false),
   fun _ _ _ _ => (none, true)⟩

/-- A fixture node's own contact. -/
def meFix : Contact :=
  NewContact (some (NewNodeID "AAAAAAAAAAAAAAAAAAAAAAAAAAAAAAAAAAAAAAAA")) "10.0.8.1:8080"

/-- A fixture peer contact. -/
def cFix : Contact :=
  NewContact (some (NewNodeID "BBBBBBBBBBBBBBBBBBBBBBBBBBBBBBBBBBBBBBBB")) "10.0.8.2:8080"

/-- A second fixture peer contact, used in successful replies. -/
def cFix2 : Contact :=
  NewContact (some (NewNodeID "CCCCCCCCCCCCCCCCCCCCCCCCCCCCCCCCCCCCCCCC")) "10.0.8.3:8080"

/-- A fixture state whose routing table holds the single contact `cFix`
and whose content map is empty. -/
def stOne : Node := ⟨⟨meFix, (List.replicate 160 []).set 0 [cFix]⟩, []⟩

/-- A fixture state with an empty routing table and empty content map. -/
def stEmpty : Node := ⟨⟨meFix, List.replicate 160 []⟩, []⟩

/-- A successful ping reply of type OK. -/
def rpcPingOK : RPC := ⟨some "OK", none, none, none⟩

/-- A successful reply carrying the single contact `cFix2`. -/
def rpcOneContact : RPC := ⟨some "OK", some ⟨none, some [cFix2]⟩, some "rid", some "sip"⟩

/-- A client whose FIND_NODE and FIND_VALUE sends succeed with
`rpcOneContact` and whose pings succeed with `rpcPingOK`. -/
def clOneContact : Client :=
  ⟨fun _ _ => (some rpcPingOK, false),
   fun _ _ _ => (some rpcOneContact, false),
   fun _ _ _ => (some rpcOneContact, false),
   fun _ _ _ _ => (none, true)⟩

/-- A well-formed FIND_NODE reply: non-nil payload, non-empty contact
list, every contact with a non-nil ID — exactly the shape that
`updateShortlist` can process without panicking. -/
def goodReply (r : RPC) : Bool :=
  match r.payload with
  | none => false
  | some p =>
      match p.contacts with
      | none => false
      | some cs => !cs.isEmpty && cs.all (fun c => c.id.isSome)

/-! ## Claim C9 -/

/-- Claim C9: `searchLocalStore` returns the stored value exactly when
the key is present in the node's local store (and `nil` exactly when it
is absent): for every store state, key and value, a `some v` result is
equivalent to the map holding `v` at that key. -/
theorem searchLocalStore_presence_iff (st : Node) (key v : String) :
    searchLocalStore st key = some v ↔ contentLookup st.content key = some v := by
  unfold searchLocalStore
  cases contentLookup st.content key <;> simp

/-! ## Claim C8 -/

/-- Claim C8: for a key present in the local store, `FindValue` returns
the stored content immediately and the node state is returned unchanged —
for EVERY client oracle, routing table and fuel, so no RPC is issued and
neither the routing table nor the shortlist machinery is consulted on the
local-hit path. -/
theorem findValue_local_hit (content : List (String × String)) (key v : String)
    (h : contentLookup content key = some v) :
    ∀ (cl : Client) (sec : Nat) (rt : RoutingTable) (fuel : Nat),
      FindValue cl sec ⟨rt, content⟩ key fuel = some (some (.ok v, ⟨rt, content⟩)) := by
  intro cl sec rt fuel
  unfold FindValue
  simp [h]

/-- Witness for C8 at a concrete store, client and state. -/
theorem findValue_local_hit_witness :
    contentLookup [("k", "v")] "k" = some "v" ∧
      FindValue clNull 0 ⟨stEmpty.rt, [("k", "v")]⟩ "k" 1 =
        some (some (.ok "v", ⟨stEmpty.rt, [("k", "v")]⟩)) :=
  ⟨by rfl, findValue_local_hit [("k", "v")] "k" "v" (by rfl) clNull 0 stEmpty.rt 1⟩

/-! ## Claim C2 -/

/-- Claim C2: the `refreshNodes` loop header is
`for i := 1; i > 159; i++`, whose guard is false at the initial value
`i = 1`; hence for every fuel the loop body runs for NO bucket index at
all (not once per index in [1, 159] as the spec prescribes) and the node
state is returned untouched, no node-lookup having been performed. -/
theorem refreshNodes_runs_zero_times (fuel : Nat) (cl : Client)
    (rngs : Nat → Nat → Nat) (st : Node) (lookupFuel : Nat) :
    refreshLoopIndices fuel 1 = [] ∧ refreshNodes cl rngs st fuel lookupFuel = some st := by
  have h : refreshLoopIndices fuel 1 = [] := by
    cases fuel <;> simp [refreshLoopIndices]
  exact ⟨h, by simp [refreshNodes, h]⟩

set_option maxRecDepth 1000000

/-! ## Claim C5 -/

/-- Claim C5 counterexample: an input whose message kind `"BOGUS"` is not
one of PING, STORE, FIND_NODE, FIND_VALUE, OK decodes WITHOUT error,
surfacing the unknown kind — the decoder does not reject it, although
`validateRPCType` (which the decoder never calls) classifies it as
invalid. -/
theorem unmarshal_accepts_unknown_kind :
    UnmarshalRPC (Json.obj [("type", Json.str "BOGUS")]) =
        .ok ⟨some "BOGUS", none, none, none⟩ ∧
      validateRPCType "BOGUS" = .error errWrongType :=
  ⟨rfl, rfl⟩

/-- Claim C5 (amended): the decoder succeeds on EVERY input object in
which any of the named fields (type, payload.value, payload.contacts,
id, senderIP) is absent or null, surfacing the message kind verbatim.
An absent field and a null field both read back as `Json.null` through
`jGet`, so this is stated compositionally for EVERY field list `fs`
(any order, duplicates, extra unknown fields): whenever each named
field's lookup decodes — in particular to the nil pointer when it is
absent or null, including `value` and `contacts` inside a PRESENT
payload object — `UnmarshalRPC` succeeds with exactly those fields,
and a string kind is surfaced verbatim whatever it is.  The decoder
rejects no kind: rejection of kinds outside the five declared ones is
performed only by `validateRPCType`, which `NewRPC` applies when
constructing envelopes. -/
theorem unmarshal_lenient_validate_strict :
    (∀ (fs : List (String × Json)) (ot : Option String) (op : Option Payload)
        (oi os : Option String),
        decOptStr (jGet fs "type") = .ok ot →
        decPayload (jGet fs "payload") = .ok op →
        decOptStr (jGet fs "id") = .ok oi →
        decOptStr (jGet fs "senderIP") = .ok os →
        UnmarshalRPC (Json.obj fs) = .ok ⟨ot, op, oi, os⟩) ∧
      decOptStr Json.null = .ok none ∧
      (∀ s : String, decOptStr (Json.str s) = .ok (some s)) ∧
      decPayload Json.null = .ok none ∧
      (∀ pfs : List (String × Json),
        jGet pfs "value" = Json.null → jGet pfs "contacts" = Json.null →
        decPayload (Json.obj pfs) = .ok (some ⟨none, none⟩)) ∧
      (∀ t : String, validateRPCType t = .ok () ↔ t ∈ rpcTypes) := by
  refine ⟨fun fs ot op oi os h1 h2 h3 h4 => ?_, rfl, fun s => rfl, rfl,
    fun pfs hv hc => ?_, fun t => ?_⟩
  · simp only [UnmarshalRPC, h1, h2, h3, h4]
    rfl
  · simp only [decPayload, hv, hc]
    rfl
  · unfold validateRPCType
    have hany : (rpcTypes.any fun x => x == t) = true ↔ t ∈ rpcTypes := by
      simp [List.any_eq_true]
    constructor
    · intro hok
      rw [← hany]
      by_contra hf
      rw [if_neg hf] at hok
      exact absurd hok (by simp [errWrongType])
    · intro hm
      rw [if_pos (hany.mpr hm)]

/-- Witness for C5's amended theorem: a document with the kind `"HELLO"`,
a PRESENT payload object whose `value` is null and whose `contacts` is
absent, absent `id` and `senderIP` fields, and an extra unknown field —
decoded successfully with the kind surfaced verbatim. -/
theorem unmarshal_lenient_witness :
    UnmarshalRPC (Json.obj [("type", Json.str "HELLO"),
        ("payload", Json.obj [("value", Json.null)]), ("extra", Json.num 7)]) =
      .ok ⟨some "HELLO", some ⟨none, none⟩, none, none⟩ ∧
    decPayload (Json.obj [("value", Json.null)]) = .ok (some ⟨none, none⟩) :=
  ⟨unmarshal_lenient_validate_strict.1
      [("type", Json.str "HELLO"), ("payload", Json.obj [("value", Json.null)]),
        ("extra", Json.num 7)]
      (some "HELLO") (some ⟨none, none⟩) none none (by rfl) (by rfl) (by rfl) (by rfl),
   unmarshal_lenient_validate_strict.2.2.2.2.1 [("value", Json.null)] (by rfl) (by rfl)⟩

/-! ## Claim C4 -/

/-- Decoding inverts encoding on optional strings. -/
theorem decOptStr_inv (x : Option String) : decOptStr (jsonOfOptStr x) = .ok x := by
  cases x <;> rfl

/-- Decoding inverts encoding on byte lists whose elements fit a byte. -/
theorem decBytes_inv (id : List Nat) (h : id.all (fun b => b < 256) = true) :
    decBytes (id.map Json.num) = .ok id := by
  induction id with
  | nil => rfl
  | cons b bs ih =>
      simp only [List.all_cons, Bool.and_eq_true, decide_eq_true_eq] at h
      simp only [List.map_cons, decBytes, decByte, if_pos h.1, ih h.2]
      rfl

/-- Decoding inverts encoding on well-formed contacts (in particular the
nil distance cache survives because it was never serialised). -/
theorem decContact_inv (c : Contact) (h : wfContact c = true) :
    decContact (jsonOfContact c) = .ok c := by
  obtain ⟨cid, caddr, cdist⟩ := c
  simp only [wfContact, Bool.and_eq_true, beq_iff_eq] at h
  obtain ⟨hdist, hid⟩ := h
  subst hdist
  cases cid with
  | none => rfl
  | some id =>
      simp only [Bool.and_eq_true, beq_iff_eq] at hid
      obtain ⟨hlen, hbytes⟩ := hid
      simp [decContact, jsonOfContact, jsonOfID, jGet, List.lookup, decID,
        decBytes_inv id hbytes, decStr, Except.map]
      rw [List.take_left' hlen]
      rfl

/-- Decoding inverts encoding on lists of well-formed contacts. -/
theorem decContactList_inv (cs : List Contact) (h : cs.all wfContact = true) :
    decContactList (cs.map jsonOfContact) = .ok cs := by
  induction cs with
  | nil => rfl
  | cons c cs ih =>
      simp only [List.all_cons, Bool.and_eq_true] at h
      simp only [List.map_cons, decContactList, decContact_inv c h.1, ih h.2]
      rfl

/-- Claim C4 counterexample: an envelope whose contact carries a cached
distance decodes from its own encoding to a DIFFERENT envelope — the
unexported `distance` field is dropped — so decode ∘ encode is not the
identity on all well-formed envelopes. -/
theorem marshal_roundtrip_drops_distance :
    UnmarshalRPC (MarshalRPC
        ⟨some "PING", some ⟨none, some [⟨some idZero, "a", some idFF⟩]⟩, some "i", some "s"⟩) =
      .ok ⟨some "PING", some ⟨none, some [⟨some idZero, "a", none⟩]⟩, some "i", some "s"⟩ ∧
    (⟨some "PING", some ⟨none, some [⟨some idZero, "a", none⟩]⟩, some "i", some "s"⟩ : RPC) ≠
      ⟨some "PING", some ⟨none, some [⟨some idZero, "a", some idFF⟩]⟩, some "i", some "s"⟩ := by
  exact ⟨by rfl, by decide⟩

/-- Claim C4 (amended): `UnmarshalRPC (MarshalRPC e)` returns `e` with no
error for every valid envelope `e` whose contacts carry no cached
distance (`wfRPC`, which also records that contact IDs are exactly 20
bytes, as the Go array type guarantees).  Envelopes with a populated
distance cache lose it, since the unexported field is not serialised. -/
theorem marshal_roundtrip (r : RPC) (h : wfRPC r = true) :
    UnmarshalRPC (MarshalRPC r) = .ok r := by
  obtain ⟨t, p, i, s⟩ := r
  cases p with
  | none =>
      simp [MarshalRPC, UnmarshalRPC, jGet, List.lookup, decPayload, decOptStr_inv]
      rfl
  | some pl =>
      obtain ⟨v, cs⟩ := pl
      simp only [wfRPC] at h
      cases cs with
      | none =>
          simp [MarshalRPC, UnmarshalRPC, jsonOfPayload, jGet, List.lookup,
            decPayload, decOptStr_inv, decContacts]
          rfl
      | some l =>
          simp [MarshalRPC, UnmarshalRPC, jsonOfPayload, jGet, List.lookup,
            decPayload, decOptStr_inv, decContacts, decContactList_inv l h]
          rfl

/-- Witness for C4 at a concrete well-formed envelope. -/
theorem marshal_roundtrip_witness :
    wfRPC ⟨some "STORE", some ⟨some "v", some [⟨some idZero, "a", none⟩]⟩,
        some "i", some "s"⟩ = true ∧
      UnmarshalRPC (MarshalRPC ⟨some "STORE", some ⟨some "v", some [⟨some idZero, "a", none⟩]⟩,
          some "i", some "s"⟩) =
        .ok ⟨some "STORE", some ⟨some "v", some [⟨some idZero, "a", none⟩]⟩,
          some "i", some "s"⟩ :=
  ⟨by rfl, marshal_roundtrip _ (by rfl)⟩

/-! ## Claim C1 -/

/-- Claim C1: `FindValue` does NOT complete without panicking on every
FIND_VALUE reply.  At this concrete input the key is not in the local
store, the shortlist holds one peer, and the peer's reply succeeds with
an empty (value-less) contact list; `updateShortlist` then calls
`appendUniqueContacts`, which evaluates `rpc.Payload.Contacts[0]` — an
index out of range, i.e. a runtime panic (`some none` in the model). -/
theorem findValue_panics_on_empty_contact_reply :
    contentLookup stOne.content "0000000000000000000000000000000000000000" = none ∧
      FindValue clEmptyReplies 0 stOne "0000000000000000000000000000000000000000" 2 =
        some none :=
  ⟨rfl, by rfl⟩

/-! ## Claim C10 counterexample -/

/-- Claim C10 counterexample: with a non-empty initial shortlist and
every issued RPC succeeding — but the reply carrying an empty contact
list — `NodeLookup` panics in `appendUniqueContacts` (`some none`)
instead of returning the contacts of the initial shortlist. -/
theorem nodeLookup_panics_on_empty_contact_reply :
    NodeLookup clEmptyReplies stOne idZero 2 = some none ∧
      FindClosestContacts stOne.rt idZero alpha ≠ [] :=
  ⟨by rfl, by decide⟩

/-! ## Claim C7 counterexample -/

/-- Claim C7 counterexample: for an owning node whose ID is `FF…FF`,
bucket index 0 and the constant-zero RNG, the generated ID has XOR
distance to the owner whose highest set bit is 159, not 0 —
`generateRefreshNodeValue` never reads the owning node's ID, so
`bucket_index(self.id, result) = i` fails. -/
theorem generateRefresh_ignores_self_id :
    bucketIndexOf idFF (generateRefreshNodeValue 0 (fun _ => 0)) = 159 ∧
      (159 : Nat) ≠ 0 :=
  ⟨by rfl, by decide⟩

/-! ## Claim C6 -/

/-- The inner lookup loop never exhausts a fuel of `sl.length - i`
iterations: `i` increases every iteration while the shortlist never
grows. -/
theorem lookupInner_isSome (cl : Client) (target : NodeID) :
    ∀ (fuel i : Nat) (sl probed : List Contact) (np : Nat) (cc : Contact)
      (uc : Bool) (st : Node), sl.length - i ≤ fuel →
      (lookupInner cl target fuel i sl probed np cc uc st).isSome = true := by
  intro fuel
  induction fuel with
  | zero =>
      intro i sl probed np cc uc st h
      have hc : ¬(i < sl.length ∧ np < alpha) := by
        rintro ⟨h1, _⟩; omega
      simp [lookupInner, hc]
  | succ fuel ih =>
      intro i sl probed np cc uc st h
      by_cases hc : i < sl.length ∧ np < alpha
      · simp only [lookupInner, if_pos hc]
        by_cases hp : ccContains probed (sl.getD i default) = true
        · simp only [hp, if_true]
          exact ih (i + 1) sl probed np cc uc st (by omega)
        · simp only [Bool.not_eq_true] at hp
          simp only [hp, Bool.false_eq_true, if_false]
          rcases hsend : cl.sendFindContact (sl.getD i default) st.rt.me target with
            ⟨orpc, err⟩
          cases err with
          | true =>
              have hel : (sl.eraseIdx i).length = sl.length - 1 :=
                List.length_eraseIdx_of_lt hc.1
              exact ih (i + 1) (sl.eraseIdx i) probed np cc uc _ (by omega)
          | false =>
              cases hus : updateShortlist cl st target sl probed orpc i np cc uc with
              | none => simp [hus]
              | some st2 =>
                  simp only [hus]
                  exact ih (i + 1) sl probed np cc uc st2 (by omega)
      · simp [lookupInner, hc]

/-- Unfolding one round of the outer lookup loop: the progress flag is
still `false` when the exit predicate
`!updateClosest || probedNodes.Len() >= BucketSize` is tested, so the
round's result is final. -/
theorem lookupOuter_succ (cl : Client) (target : NodeID) (fuel : Nat)
    (sl probed : List Contact) (cc : Contact) (st : Node) :
    lookupOuter cl target (fuel + 1) sl probed cc st =
      match lookupInner cl target sl.length 0 sl probed 0 cc false st with
      | none => none
      | some none => some none
      | some (some r) => some (some r) := by
  simp only [lookupOuter]
  cases h : lookupInner cl target sl.length 0 sl probed 0 cc false st with
  | none => rfl
  | some x =>
      cases x with
      | none => rfl
      | some r =>
          obtain ⟨sl2, st2⟩ := r
          simp

/-- One unit of outer fuel always suffices, and the result is never the
fuel-exhaustion sentinel. -/
theorem lookupOuter_fuel_one (cl : Client) (target : NodeID) (fuel : Nat)
    (sl probed : List Contact) (cc : Contact) (st : Node) :
    lookupOuter cl target (fuel + 1) sl probed cc st =
        lookupOuter cl target 1 sl probed cc st ∧
      (lookupOuter cl target 1 sl probed cc st).isSome = true := by
  have hin := lookupInner_isSome cl target sl.length 0 sl probed 0 cc false st (by omega)
  rw [lookupOuter_succ, show (1 : Nat) = 0 + 1 from rfl, lookupOuter_succ]
  cases h : lookupInner cl target sl.length 0 sl probed 0 cc false st with
  | none => rw [h] at hin; simp at hin
  | some x => cases x <;> simp

/-- Claim C6: every call to `NodeLookup` terminates.  The loop exits
exactly when its predicate `!updateClosest || probed ≥ BucketSize` holds;
because the progress flag reaching the test is the round's local
`updateClosest := false` (by-value in `updateShortlist`), the predicate
holds after every first round: one unit of fuel computes the final
result for every client, state and target, and the fuel-exhaustion
sentinel is never returned. -/
theorem nodeLookup_terminates_first_round (cl : Client) (st : Node)
    (target : NodeID) (fuel : Nat) :
    NodeLookup cl st target (fuel + 1) = NodeLookup cl st target 1 ∧
      (NodeLookup cl st target 1).isSome = true := by
  unfold NodeLookup
  exact lookupOuter_fuel_one cl target fuel
    (FindClosestContacts st.rt target alpha) [] currentClosestInit st

/-! ## Claim C10 (amended) -/

/-- An if-then-else between two `some`s is `some`. -/
theorem ite_some {α : Type} {c : Prop} [Decidable c] (x y : α) :
    ∃ z, (if c then some x else some y) = some z := by
  by_cases h : c
  · exact ⟨x, if_pos h⟩
  · exact ⟨y, if_neg h⟩

/-- A ping answered `(some q, false)` with type OK re-adds the target. -/
theorem Ping_ok (cl : Client) (st : Node) (target : Contact) (q : RPC)
    (hq : cl.sendPing target st.rt.me = (some q, false)) (hok : q.type = some "OK") :
    Ping cl st target = some { st with rt := AddContact st.rt target } := by
  unfold Ping
  rw [hq]
  simp [hok]

/-- `updateBucket` cannot panic when every ping is answered with type
OK. -/
theorem updateBucket_isSome (cl : Client) (st : Node) (idx : Nat) (c : Contact)
    (hping : ∀ a b : Contact, ∃ q, cl.sendPing a b = (some q, false) ∧ q.type = some "OK") :
    ∃ st2, updateBucket cl st idx c = some st2 := by
  unfold updateBucket
  by_cases h1 : (st.rt.buckets.getD idx []).length < BucketSize ∨
      ccContains (st.rt.buckets.getD idx []) c = true
  · exact ⟨_, by rw [if_pos h1]⟩
  · rw [if_neg h1]
    have hne : st.rt.buckets.getD idx [] ≠ [] := by
      intro he
      exact h1 (Or.inl (by rw [he]; simp [BucketSize]))
    obtain ⟨first, rest, hb⟩ := List.exists_cons_of_ne_nil hne
    rw [hb]
    obtain ⟨q, hq, hok⟩ := hping first st.rt.me
    simp only [List.head?_cons, Ping_ok cl st first q hq hok]
    exact ite_some _ _

/-- `calcAll` succeeds on contacts whose IDs are all present, preserving
the list length. -/
theorem calcAll_some (target : NodeID) :
    ∀ l : List Contact, (∀ c ∈ l, c.id.isSome = true) →
      ∃ l2, calcAll target l = some l2 ∧ l2.length = l.length := by
  intro l
  induction l with
  | nil => exact fun _ => ⟨[], rfl, rfl⟩
  | cons c cs ih =>
      intro h
      obtain ⟨ci, hci⟩ := Option.isSome_iff_exists.mp (h c (by simp))
      obtain ⟨l2, hl2, hlen⟩ := ih (fun x hx => h x (by simp [hx]))
      refine ⟨{ c with distance := some (xorID ci target) } :: l2, ?_, by simp [hlen]⟩
      simp [calcAll, calcDistance, hci, hl2]

/-- `appendUniqueContacts` does not panic exactly when the reply's
contact list is non-empty. -/
theorem appendUniqueContacts_isSome (r : RPC) (p : Payload) (cs : List Contact)
    (hp : r.payload = some p) (hcs : p.contacts = some cs) (hne : cs ≠ [])
    (sl : List Contact) (cc : Contact) (uc : Bool) :
    ∃ x, appendUniqueContacts r sl cc uc = some x := by
  have hcs2 : (r.payload.map fun p => p.contacts.getD []).getD [] = cs := by
    rw [hp]
    simp [hcs]
  unfold appendUniqueContacts
  rw [hcs2]
  cases cs with
  | nil => exact absurd rfl hne
  | cons c0 rest =>
      dsimp only
      by_cases hless : contactLess c0 cc = true
      · exact ⟨_, by rw [if_pos hless]⟩
      · exact ⟨_, by rw [if_neg hless]⟩

/-- Under well-formed FIND_NODE replies and OK pings, `updateShortlist`
completes without panicking; only the node state that was reachable
through the receiver pointer is returned, the by-value copies of the
shortlist, probed set, closest contact and progress flag being lost. -/
theorem updateShortlist_isSome (cl : Client) (st : Node) (target : NodeID)
    (sl probed : List Contact) (r : RPC) (i np : Nat) (cc : Contact) (uc : Bool)
    (hr : goodReply r = true)
    (hping : ∀ a b : Contact, ∃ q, cl.sendPing a b = (some q, false) ∧ q.type = some "OK") :
    ∃ st2, updateShortlist cl st target sl probed (some r) i np cc uc = some st2 := by
  unfold updateShortlist
  obtain ⟨st1, hub⟩ := updateBucket_isSome cl st
    (getBucketIndex st.rt (sl.getD i default).id) (sl.getD i default) hping
  unfold goodReply at hr
  cases hp : r.payload with
  | none => rw [hp] at hr; simp at hr
  | some p =>
      rw [hp] at hr
      dsimp only at hr
      cases hcs : p.contacts with
      | none => rw [hcs] at hr; simp at hr
      | some csl =>
          rw [hcs] at hr
          dsimp only at hr
          simp only [Bool.and_eq_true, Bool.not_eq_true', List.all_eq_true] at hr
          obtain ⟨hne, hids⟩ := hr
          obtain ⟨cs2, hcalc, hlen⟩ := calcAll_some target csl hids
          have hne2 : cs2 ≠ [] := by
            intro he
            rw [he] at hlen
            have hz : csl = [] := List.length_eq_zero.mp hlen.symm
            rw [hz] at hne
            simp at hne
          simp only [hub, hp, hcs, Option.getD_some, hcalc]
          obtain ⟨x, happ⟩ := appendUniqueContacts_isSome
            { r with payload := some { p with contacts := some cs2 } }
            { p with contacts := some cs2 } cs2 rfl rfl hne2 sl cc uc
          rw [happ]
          exact ⟨st1, rfl⟩

/-- Claim C10 (amended): for every target, a `NodeLookup` in which every
issued RPC succeeds — with well-formed replies: a non-nil payload, a
non-empty contact list whose IDs are present, and pings answered OK —
returns exactly the contacts of the initial shortlist
`FindClosestContacts(target, alpha)`: because `updateShortlist` receives
the shortlist, probed set, current-closest and progress flag by value, no
reply contact is merged, nothing is marked probed, the flag stays false
and the loop exits after the first round.  (Without the well-formedness
proviso the claim fails: an empty contact list in a successful reply
panics — see the counterexample.) -/
theorem nodeLookup_by_value_returns_initial_shortlist
    (cl : Client) (st : Node) (target : NodeID) (fuel : Nat)
    (reply : Contact → RPC)
    (hfind : ∀ c : Contact, cl.sendFindContact c st.rt.me target = (some (reply c), false))
    (hgood : ∀ c : Contact, goodReply (reply c) = true)
    (hping : ∀ a b : Contact, ∃ q, cl.sendPing a b = (some q, false) ∧ q.type = some "OK") :
    ∃ st2, NodeLookup cl st target (fuel + 1) =
      some (some (FindClosestContacts st.rt target alpha, st2)) := by
  unfold NodeLookup
  rw [lookupOuter_succ]
  cases hsl : FindClosestContacts st.rt target alpha with
  | nil =>
      refine ⟨st, ?_⟩
      simp [lookupInner]
  | cons c rest =>
      have hrest : rest = [] := by
        have h1 : (FindClosestContacts st.rt target alpha).length ≤ 1 := by
          unfold FindClosestContacts alpha
          exact List.length_take_le 1 _
        rw [hsl] at h1
        simp only [List.length_cons] at h1
        exact List.length_eq_zero.mp (by omega)
      subst hrest
      obtain ⟨st2, hus⟩ := updateShortlist_isSome cl st target [c] [] (reply c) 0 0
        currentClosestInit false (hgood c) hping
      refine ⟨st2, ?_⟩
      simp [lookupInner, alpha, ccContains, hfind c, hus]

/-- Witness for C10 at a concrete client, state and target. -/
theorem nodeLookup_by_value_witness :
    (∀ c : Contact, clOneContact.sendFindContact c stOne.rt.me idZero =
        (some rpcOneContact, false)) ∧
      ∃ st2, NodeLookup clOneContact stOne idZero 1 =
        some (some (FindClosestContacts stOne.rt idZero alpha, st2)) :=
  ⟨fun _ => rfl,
    nodeLookup_by_value_returns_initial_shortlist clOneContact stOne idZero 0
      (fun _ => rpcOneContact) (fun _ => rfl) (fun _ => rfl)
      (fun _ _ => ⟨rpcPingOK, rfl, rfl⟩)⟩

/-! ## Claim C3 -/

/-- Claim C3: for every value and every node whose routing table is empty
(a single-node network), `StoreValue` returns the lowercase-hex SHA-1 of
the value as the key but leaves the node state — in particular the local
content map — COMPLETELY unchanged: the `insertLocalStore` helper is
never called, despite the source comment "Store value in the map of the
current node".  Consequently a subsequent local `FindValue` on the
returned key does NOT succeed: if the key was absent before, the lookup
ends with the `no value found` error. -/
theorem storeValue_no_local_persist (cl : Client) (sec : Nat) (st : Node)
    (data : String) (fuel : Nat) (hempty : rtContacts st.rt = []) :
    StoreValue cl sec st data (fuel + 1) = some (some (sha1hex data, st)) ∧
      (contentLookup st.content (sha1hex data) = none →
        FindValue cl sec st (sha1hex data) (fuel + 1) =
          some (some (.error "no value found", st))) := by
  have hfcc : ∀ (target : NodeID) (count : Nat),
      FindClosestContacts st.rt target count = [] := by
    intro target count
    simp [FindClosestContacts, hempty, ccSort]
  constructor
  · unfold StoreValue NodeLookup
    dsimp only
    simp only [hfcc]
    rw [lookupOuter_succ]
    simp [lookupInner, storeLoop]
  · intro hnone
    unfold FindValue
    rw [hnone]
    dsimp only
    simp only [hfcc]
    simp [findValueOuter, findValueInner]

/-- Witness for C3 at a concrete value and single-node state. -/
theorem storeValue_no_local_persist_witness :
    rtContacts stEmpty.rt = [] ∧
      StoreValue clNull 0 stEmpty "hello" 1 = some (some (sha1hex "hello", stEmpty)) ∧
      FindValue clNull 0 stEmpty (sha1hex "hello") 1 =
        some (some (.error "no value found", stEmpty)) :=
  ⟨by rfl,
   (storeValue_no_local_persist clNull 0 stEmpty "hello" 0 (by rfl)).1,
   (storeValue_no_local_persist clNull 0 stEmpty "hello" 0 (by rfl)).2 (by rfl)⟩

/-! ## Claim C7 (amended) -/

/-- `log2p` computes the position of the highest set bit. -/
theorem log2p_eq_of (i : Nat) : ∀ fuel n : Nat, i < fuel → 2 ^ i ≤ n → n < 2 ^ (i + 1) →
    log2p fuel n = i := by
  induction i with
  | zero =>
      intro fuel n hf h1 h2
      rw [pow_zero] at h1
      rw [zero_add, pow_one] at h2
      cases fuel with
      | zero => omega
      | succ f =>
          have hlt : ¬2 ≤ n := by omega
          simp [log2p, hlt]
  | succ i ih =>
      intro fuel n hf h1 h2
      cases fuel with
      | zero => omega
      | succ f =>
          have h2n : 2 ≤ n := by
            have hp : 2 ≤ 2 ^ (i + 1) := by
              calc 2 = 2 ^ 1 := (pow_one 2).symm
              _ ≤ 2 ^ (i + 1) := Nat.pow_le_pow_right (by omega) (by omega)
            omega
          simp only [log2p, if_pos h2n]
          have hrec : log2p f (n / 2) = i := by
            refine ih f (n / 2) (by omega) ?_ ?_
            · rw [Nat.le_div_iff_mul_le (by omega : 0 < 2)]
              calc 2 ^ i * 2 = 2 ^ (i + 1) := by rw [pow_succ]
              _ ≤ n := h1
            · rw [Nat.div_lt_iff_lt_mul (by omega : 0 < 2)]
              calc n < 2 ^ (i + 1 + 1) := h2
              _ = 2 ^ (i + 1) * 2 := by rw [pow_succ]
          omega

/-- `idVal` as a function of the fold's accumulator. -/
theorem idVal_foldl_from (l : List Nat) :
    ∀ a : Nat, l.foldl (fun acc b => acc * 256 + b) a =
      a * 256 ^ l.length + l.foldl (fun acc b => acc * 256 + b) 0 := by
  induction l with
  | nil => intro a; simp
  | cons x l ih =>
      intro a
      simp only [List.foldl_cons, List.length_cons]
      rw [ih (a * 256 + x), ih (0 * 256 + x)]
      ring

/-- `idVal` of a concatenation. -/
theorem idVal_append (l1 l2 : List Nat) :
    idVal (l1 ++ l2) = idVal l1 * 256 ^ l2.length + idVal l2 := by
  unfold idVal
  rw [List.foldl_append]
  exact idVal_foldl_from l2 _

/-- `idVal` of a cons. -/
theorem idVal_cons (x : Nat) (l : List Nat) :
    idVal (x :: l) = x * 256 ^ l.length + idVal l := by
  unfold idVal
  simp only [List.foldl_cons]
  rw [idVal_foldl_from l (0 * 256 + x)]
  ring

/-- `idVal` of an all-zero list. -/
theorem idVal_replicate_zero (n : Nat) : idVal (List.replicate n 0) = 0 := by
  induction n with
  | zero => rfl
  | succ n ih =>
      rw [List.replicate_succ, idVal_cons, ih]
      simp

/-- `idVal` is bounded by the byte width. -/
theorem idVal_lt (l : List Nat) (h : ∀ x ∈ l, x < 256) : idVal l < 256 ^ l.length := by
  induction l with
  | nil => simp [idVal]
  | cons x l ih =>
      rw [idVal_cons]
      have hx : x < 256 := h x (by simp)
      have hl : idVal l < 256 ^ l.length := ih (fun y hy => h y (by simp [hy]))
      calc x * 256 ^ l.length + idVal l < x * 256 ^ l.length + 256 ^ l.length := by omega
      _ = (x + 1) * 256 ^ l.length := by ring
      _ ≤ 256 * 256 ^ l.length := Nat.mul_le_mul_right _ (by omega)
      _ = 256 ^ (x :: l).length := by rw [List.length_cons]; ring

/-- A `getD` from a list of bytes is a byte. -/
theorem getD_lt_256 (l : List Nat) (h : ∀ x ∈ l, x < 256) (p : Nat) :
    l.getD p 0 < 256 := by
  by_cases hp : p < l.length
  · exact h _ (by rw [List.getD_eq_getElem l 0 hp]; exact List.getElem_mem hp)
  · rw [List.getD_eq_default l 0 (by omega)]
    omega

/-- Setting one position of an all-zero list splits it around that
position. -/
theorem replicate_set (n p v : Nat) (h : p < n) :
    (List.replicate n (0 : Nat)).set p v =
      List.replicate p 0 ++ v :: List.replicate (n - p - 1) 0 := by
  have hsplit : List.replicate n (0 : Nat) =
      List.replicate p 0 ++ List.replicate (n - p) 0 := by
    rw [← List.replicate_add]
    congr 1
    omega
  rw [hsplit, List.set_append_right _ _ (by simp)]
  have h2 : List.replicate (n - p) (0 : Nat) = 0 :: List.replicate (n - p - 1) 0 := by
    cases hnp : n - p with
    | zero => omega
    | succ k => rfl
  rw [h2]
  simp

/-- The scew loop only touches the bytes strictly below the set bit
position: after any number of iterations the list is still the `bp`
leading zeros, the byte `v0`, and a tail of `19 - bp` bytes. -/
theorem fold_set_shape (rng : Nat → Nat) (b bp : Nat) (hbp : bp ≤ 19) (v0 : Nat) :
    ∀ n : Nat, n ≤ 19 - bp →
      ∃ tail : List Nat, tail.length = 19 - bp ∧ (∀ x ∈ tail, x < 256) ∧
        (List.range n).foldl (scewStep rng b)
            (List.replicate bp 0 ++ v0 :: List.replicate (19 - bp) 0) =
          List.replicate bp 0 ++ v0 :: tail := by
  intro n
  induction n with
  | zero =>
      intro _
      exact ⟨List.replicate (19 - bp) 0, by simp, by simp, by simp⟩
  | succ n ih =>
      intro hn
      obtain ⟨tail, hlen, hlt, heq⟩ := ih (by omega)
      rw [List.range_succ, List.foldl_append, heq]
      simp only [List.foldl_cons, List.foldl_nil]
      unfold scewStep
      have hpbound : (List.replicate bp (0 : Nat)).length ≤ 19 - n := by
        simp
        omega
      have hgd : (List.replicate bp 0 ++ v0 :: tail).getD (19 - n) 0 =
          (v0 :: tail).getD (19 - n - bp) 0 := by
        simp only [List.getD_eq_getElem?_getD, List.getElem?_append_right hpbound,
          List.length_replicate]
      have hidx : 19 - n - bp = (19 - n - bp - 1) + 1 := by omega
      have hval : Nat.xor ((v0 :: tail).getD (19 - n - bp) 0) (rng n % b % 256) < 256 := by
        have ha : (v0 :: tail).getD (19 - n - bp) 0 < 256 := by
          rw [hidx]
          exact getD_lt_256 tail hlt _
        have hb2 : rng n % b % 256 < 256 := Nat.mod_lt _ (by omega)
        have h256 : (256 : Nat) = 2 ^ 8 := by norm_num
        rw [h256] at ha hb2 ⊢
        exact Nat.xor_lt_two_pow ha hb2
      refine ⟨tail.set (19 - n - bp - 1)
        (Nat.xor ((v0 :: tail).getD (19 - n - bp) 0) (rng n % b % 256)), ?_, ?_, ?_⟩
      · simp [hlen]
      · intro x hx
        rcases List.mem_or_eq_of_mem_set hx with hold | hnew
        · exact hlt x hold
        · rw [hnew]
          exact hval
      · rw [List.set_append_right _ _ hpbound, hgd]
        simp only [List.length_replicate]
        rw [hidx]
        rfl

/-- Componentwise XOR with zeros is the identity. -/
theorem zipWith_zero_xor : ∀ (n : Nat) (l : List Nat), l.length = n →
    List.zipWith Nat.xor (List.replicate n 0) l = l := by
  intro n
  induction n with
  | zero =>
      intro l h
      cases l with
      | nil => rfl
      | cons x xs => simp at h
  | succ n ih =>
      intro l h
      cases l with
      | nil => simp at h
      | cons x xs =>
          rw [List.replicate_succ]
          simp only [List.zipWith_cons_cons]
          have hx : Nat.xor 0 x = x := Nat.zero_xor x
          rw [hx, ih xs (by simpa using h)]

/-- XOR distance from the all-zero ID is the ID itself. -/
theorem xorID_zero (l : List Nat) (h : l.length = 20) : xorID idZero l = l := by
  unfold xorID idZero
  exact zipWith_zero_xor 20 l h

/-- Claim C7 (amended): `generateRefreshNodeValue` never reads the owning
node's ID; for every bucket index `i ∈ [0, 159]` and every RNG oracle,
the generated ID itself has its highest set bit at position `i` — that
is, its XOR distance to the ALL-ZERO ID falls in bucket `i`.  The
claimed `bucket_index(self.id, result) = i` holds only for a node whose
ID is zero (see the counterexample for a node with a different ID). -/
theorem generateRefresh_bucket_of_zero (i : Nat) (rng : Nat → Nat) (h : i ≤ 159) :
    bucketIndexOf idZero (generateRefreshNodeValue i rng) = i := by
  have hdiv : i / 8 ≤ 19 := by omega
  have hmod : i % 8 < 8 := Nat.mod_lt _ (by omega)
  have hv0 : (1 <<< (i % 8)) % 256 = 2 ^ (i % 8) := by
    rw [Nat.shiftLeft_eq, one_mul]
    apply Nat.mod_eq_of_lt
    calc 2 ^ (i % 8) ≤ 2 ^ 7 := Nat.pow_le_pow_right (by omega) (by omega)
    _ < 256 := by norm_num
  unfold generateRefreshNodeValue
  dsimp only
  rw [replicate_set 20 (19 - i / 8) _ (by omega)]
  have h20 : 20 - (19 - i / 8) - 1 = 19 - (19 - i / 8) := by omega
  rw [h20]
  obtain ⟨tail, hlen, hlt, heq⟩ := fold_set_shape rng i (19 - i / 8) (by omega)
    ((1 <<< (i % 8)) % 256) (19 - (19 - i / 8)) (le_refl _)
  rw [heq]
  have htlen : tail.length = i / 8 := by omega
  have hLlen : (List.replicate (19 - i / 8) 0 ++ ((1 <<< (i % 8)) % 256) :: tail).length = 20 := by
    simp [htlen]
    omega
  have hr : idVal tail < 2 ^ (8 * (i / 8)) := by
    have := idVal_lt tail hlt
    rw [htlen] at this
    calc idVal tail < 256 ^ (i / 8) := this
    _ = 2 ^ (8 * (i / 8)) := by
        rw [show (256 : Nat) = 2 ^ 8 by norm_num, ← pow_mul]
  have hpow : 2 ^ (i % 8) * (2 ^ 8) ^ (i / 8) = 2 ^ i := by
    rw [← pow_mul, ← pow_add, Nat.mod_add_div]
  have hval : idVal (List.replicate (19 - i / 8) 0 ++ ((1 <<< (i % 8)) % 256) :: tail) =
      2 ^ i + idVal tail := by
    rw [idVal_append, idVal_replicate_zero, idVal_cons, htlen, hv0,
      show (256 : Nat) = 2 ^ 8 by norm_num, hpow]
    simp
  unfold bucketIndexOf
  rw [xorID_zero _ hLlen, hval]
  have hle : 8 * (i / 8) ≤ i := by
    have := Nat.div_mul_le_self i 8
    omega
  have hrlt : idVal tail < 2 ^ i := lt_of_lt_of_le hr (Nat.pow_le_pow_right (by omega) hle)
  refine log2p_eq_of i 160 _ (by omega) (by omega) ?_
  have hsucc : 2 ^ (i + 1) = 2 ^ i + 2 ^ i := by
    rw [pow_succ]
    ring
  omega

/-- Witness for C7 (amended) at a concrete bucket index and RNG. -/
theorem generateRefresh_bucket_of_zero_witness :
    12 ≤ 159 ∧
      bucketIndexOf idZero (generateRefreshNodeValue 12 (fun k => 37 * k + 5)) = 12 :=
  ⟨by decide, generateRefresh_bucket_of_zero 12 (fun k => 37 * k + 5) (by decide)⟩

end Kademlia
